import Mathlib

/-!
Shallow embedding of the S pool Jupiter adapter core
(`libs/s-jup-interface/src/lib.rs`) and of the swap instruction assembler
(`libs/s-controller-lib/src/instructions/swap_exact_in.rs`).

Pubkeys are modelled as natural numbers. Amounts are u64 values modelled as
naturals, with explicit bounds checks where the source uses checked
arithmetic. Account data is modelled post-parse: the binary codec for pool
state, asset-state lists, token accounts and mints is out of scope per the
spec, so an account carries optional parsed payloads and a missing payload
models a decode failure. The pluggable sol-value calculators and the pricing
program are opaque capabilities; they are modelled as records of functions.
-/

/-- Maximum value of a 32-bit unsigned integer. -/
def U32MAX : Nat := 4294967295

/-- Maximum value of a 64-bit unsigned integer. -/
def U64MAX : Nat := 18446744073709551615

/-- Error kinds surfaced by the adapter. The named constructors correspond to
the anyhow or SControllerError cases raised in the source. -/
inductive SErr where
  | poolStateNotFetched
  | pricingProgNotFetched
  | lstNotOnList
  | lstNotSupported
  | reservesNotFetched
  | zeroValue
  | poolWouldLoseSolValue
  | mathError
  | calcError
  | pricingError
  | parseError
  | pubkeyError
  | balanceParseError
  | supplyParseError
  deriving Repr, DecidableEq

/-- One entry of the pool asset-state list (`LstState`): asset mint, the
linked sol-value-calculator program, and the cached sol-value accounting
field updated by sync. -/
structure LstState where
  mint : Nat
  sol_value_calculator : Nat
  sol_value : Nat
  deriving Repr, DecidableEq

/-- Pool state fields used by the adapter (`PoolState`). -/
structure PoolStateM where
  total_sol_value : Nat
  trading_protocol_fee_bps : Nat
  pricing_program : Nat
  lp_token_mint : Nat
  deriving Repr, DecidableEq

/-- A bound sol-value calculator (`KnownLstSolValCalc`), modelled as an
opaque capability: its identity (lst mint and calculator program id) and its
two conversion functions, each returning a min and max bound interval. -/
structure SolValCalc where
  lstMint : Nat
  programId : Nat
  lstToSol : Nat → Except SErr (Nat × Nat)
  solToLst : Nat → Except SErr (Nat × Nat)

/-- Per-asset binding (`LstData`): the bound calculator, the last observed
reserves balance, and the token program of the asset. -/
structure LstData where
  sol_val_calc : SolValCalc
  reserves_balance : Option Nat
  token_program : Nat

/-- The pricing program (`KnownPricingProg`), modelled as an opaque
capability: given input mint, output mint, input amount and input sol value,
it returns the output sol value. -/
structure PricingProg where
  quoteExactIn : Nat → Nat → Nat → Nat → Except SErr Nat

/-- A fetched account, modelled post-parse: each optional field is the result
of the corresponding decoder, with `none` standing for a decode failure. -/
structure AccountM where
  tokenBalance : Option Nat
  mintSupply : Option Nat
  lstList : Option (List LstState)
  poolState : Option PoolStateM

/-- The caller-supplied snapshot mapping from account address to account. -/
def AccountMap : Type := Nat → Option AccountM

/-- The in-memory pool mirror (`SPoolJup`). The asset-state list account and
the pool state account are stored as their parsed payloads (both are only
ever stored after a successful parse in the source). -/
structure SPoolJup where
  program_id : Nat
  lst_state_list_addr : Nat
  pool_state_addr : Nat
  lp_mint_supply : Option Nat
  pool_state : Option PoolStateM
  lst_state_list : List LstState
  pricing_prog : Option PricingProg
  lst_data_list : List (Option LstData)

/-! ## Reconciliation engine (`SPoolJup::update_lst_state_list`) -/

/-- One slot of the slow-path rebuild loop in `update_lst_state_list`:
if the mint changed, search the whole previous binding list for a binding
whose calculator identity equals the new (mint, calculator) pair; otherwise
reuse the old binding only if its calculator program is unchanged. -/
def rebuildEntry (fullOldD : List (Option LstData)) (oldSt : LstState)
    (oldD : Option LstData) (newSt : LstState) : Option LstData :=
  if oldSt.mint != newSt.mint then
    (fullOldD.find? (fun opt =>
      match opt with
      | some ld =>
          ld.sol_val_calc.lstMint == newSt.mint &&
            ld.sol_val_calc.programId == newSt.sol_value_calculator
      | none => false)).join
  else
    match oldD with
    | none => none
    | some ld =>
        if ld.sol_val_calc.programId == newSt.sol_value_calculator then some ld
        else none

/-- The slow-path rebuild of the binding list: the source initializes a
vector of `None` of the new length and writes entries only over the zip of
the old state list, the old binding list and the new state list, so the
rebuild stops at the shortest of the three and the remaining new slots stay
unbound. -/
def rebuildLstDataList (oldL : List LstState) (oldD : List (Option LstData))
    (newL : List LstState) (fullOldD : List (Option LstData)) :
    List (Option LstData) :=
  match oldL, oldD, newL with
  | oSt :: oT, oD :: dT, nSt :: nT =>
      rebuildEntry fullOldD oSt oD nSt :: rebuildLstDataList oT dT nT fullOldD
  | _, _, rest => rest.map (fun _ => none)

/-- Reconciliation (`update_lst_state_list`): fast path keeps all bindings
when length and every (mint, calculator) identity are unchanged; otherwise
the binding list is rebuilt slot by slot. The new state list always replaces
the stored snapshot. -/
def update_lst_state_list (m : SPoolJup) (newL : List LstState) : SPoolJup :=
  if m.lst_state_list.length == newL.length &&
      (m.lst_state_list.zip newL).all (fun p =>
        p.1.mint == p.2.mint &&
          p.1.sol_value_calculator == p.2.sol_value_calculator) then
    { m with lst_state_list := newL }
  else
    { m with
      lst_state_list := newL,
      lst_data_list :=
        rebuildLstDataList m.lst_state_list m.lst_data_list newL
          m.lst_data_list }

/-! ## Quote engine (`SPoolJup::quote_swap_exact_in`) -/

/-- Quote request (`QuoteParams`), exact-in mode. -/
structure QuoteParams where
  amount : Nat
  inputMint : Nat
  outputMint : Nat
  deriving Repr, DecidableEq

/-- Quote result (`Quote`). The fee percentage is a Decimal in the source,
modelled here as a rational. -/
structure Quote where
  notEnoughLiquidity : Bool
  inAmount : Nat
  outAmount : Nat
  feeMint : Nat
  feeAmount : Nat
  feePct : ℚ
  deriving Repr, DecidableEq

/-- Lookup of a ready asset (`SPoolJup::find_ready_lst`): find the entry of
the zipped state and binding lists whose mint matches, then require the
binding to be present. -/
def find_ready_lst (m : SPoolJup) (mint : Nat) :
    Except SErr (LstState × LstData) :=
  match (m.lst_state_list.zip m.lst_data_list).find?
      (fun p => p.1.mint == mint) with
  | none => .error .lstNotOnList
  | some (_, none) => .error .lstNotSupported
  | some (st, some d) => .ok (st, d)

/-- Modelled from the spec (the function `sync_sol_value_with_retval` lives
in s-controller-lib, outside the provided sources): replace the asset cached
sol value by the freshly computed one and adjust the pool total by the same
difference, with checked u64 arithmetic. -/
def sync_sol_value_with_retval (ps : PoolStateM) (ls : LstState)
    (newVal : Nat) : Except SErr (PoolStateM × LstState) :=
  if ps.total_sol_value < ls.sol_value then .error .mathError
  else
    let t := ps.total_sol_value - ls.sol_value + newVal
    if U64MAX < t then .error .mathError
    else .ok ({ ps with total_sol_value := t }, { ls with sol_value := newVal })

/-- Sync step (`apply_sync_sol_value`): recompute the asset sol value from
its currently observed reserves balance (minimum bound) and fold it into the
pool state, without committing; also returns the reserves balance. -/
def apply_sync_sol_value (ps : PoolStateM) (ls : LstState) (ld : LstData) :
    Except SErr (PoolStateM × LstState × Nat) :=
  match ld.reserves_balance with
  | none => .error .reservesNotFetched
  | some rb =>
      match ld.sol_val_calc.lstToSol rb with
      | .error e => .error e
      | .ok rv =>
          match sync_sol_value_with_retval ps ls rv.1 with
          | .error e => .error e
          | .ok (ps1, ls1) => .ok (ps1, ls1, rb)

/-- Modelled from the spec (the function `calc_swap_protocol_fees` lives in
s-controller-lib, outside the provided sources): the protocol fee in native
output units is proportional to the value captured by the pricing spread,
scaled by the trading protocol fee in basis points. -/
def calc_swap_protocol_fees (inSol outSol dstLstOut bps : Nat) :
    Except SErr Nat :=
  if outSol = 0 then .error .mathError
  else .ok (dstLstOut * ((inSol - outSol) * bps / 10000) / outSol)

/-- The sol-value fee interval builder
(`AmtsAfterFeeBuilder::new_amt_bef_fee(..).with_amt_aft_fee(..)`): fails when
the amount after fee exceeds the amount before fee. -/
def amtsAfterFee (amtBefFee amtAftFee : Nat) : Except SErr (Nat × Nat) :=
  if amtBefFee < amtAftFee then .error .mathError else .ok (amtBefFee, amtAftFee)

/-- Fee reporting (`calc_quote_fees`): the fee charged in sol value is the
difference between the before and after amounts; the fee percentage is that
difference divided by the amount before fee (a Decimal division in the
source, modelled as rational division, failing on a zero denominator); the
fee amount in native units is the minimum bound of converting the sol fee
through the output calculator. -/
def calc_quote_fees (amts : Nat × Nat) (svc : SolValCalc) :
    Except SErr (Nat × ℚ) :=
  let feeSol := amts.1 - amts.2
  if amts.1 = 0 then .error .mathError
  else
    match svc.solToLst feeSol with
    | .error e => .error e
    | .ok fv => .ok (fv.1, (feeSol : ℚ) / (amts.1 : ℚ))

/-- The quote computation (`SPoolJup::quote_swap_exact_in`), following the
source step by step: accessors, sync of both assets, input conversion with
zero check, pricing, value-loss check, output conversion with zero check,
protocol fee, checked total, liquidity flag, fee reporting. -/
def quote_swap_exact_in (m : SPoolJup) (qp : QuoteParams) :
    Except SErr Quote :=
  match m.pool_state with
  | none => .error .poolStateNotFetched
  | some ps =>
  match m.pricing_prog with
  | none => .error .pricingProgNotFetched
  | some pp =>
  match find_ready_lst m qp.inputMint with
  | .error e => .error e
  | .ok (ist, idata) =>
  match apply_sync_sol_value ps ist idata with
  | .error e => .error e
  | .ok (ps1, _, _) =>
  match find_ready_lst m qp.outputMint with
  | .error e => .error e
  | .ok (ost, odata) =>
  match apply_sync_sol_value ps1 ost odata with
  | .error e => .error e
  | .ok (ps2, _, outRb) =>
  match idata.sol_val_calc.lstToSol qp.amount with
  | .error e => .error e
  | .ok iv =>
  if iv.1 = 0 then .error .zeroValue
  else
  match pp.quoteExactIn qp.inputMint qp.outputMint qp.amount iv.1 with
  | .error e => .error e
  | .ok outSol =>
  if iv.1 < outSol then .error .poolWouldLoseSolValue
  else
  match odata.sol_val_calc.solToLst outSol with
  | .error e => .error e
  | .ok ov =>
  if ov.1 = 0 then .error .zeroValue
  else
  match calc_swap_protocol_fees iv.1 outSol ov.1 ps2.trading_protocol_fee_bps with
  | .error e => .error e
  | .ok pf =>
  if U64MAX < ov.1 + pf then .error .mathError
  else
  match amtsAfterFee iv.1 outSol with
  | .error e => .error e
  | .ok amts =>
  match calc_quote_fees amts odata.sol_val_calc with
  | .error e => .error e
  | .ok fq =>
  .ok { notEnoughLiquidity := decide (outRb < ov.1 + pf),
        inAmount := qp.amount,
        outAmount := ov.1,
        feeMint := qp.outputMint,
        feeAmount := fq.1,
        feePct := fq.2 }

/-! ## Refresh (`Amm::update` for `SPoolJup`)

The refresh runs a fixed sequence of sub-updates over the mirror: one per
bound asset, then the pricing program, then the asset-state list, then the
pool state, then the LP supply. Each sub-update produces a new mirror and an
optional error; results are combined with `Result::and`, which keeps the
first error, and every sub-update runs regardless of earlier failures. The
opaque capabilities (calculator update, pricing update, reserve address
derivation, pricing program construction) are parameters. -/

/-- A sub-update of the refresh: new mirror plus optional error. -/
def Step : Type := SPoolJup → SPoolJup × Option SErr

/-- Eager sequencing of sub-updates, mirroring the
`fold(Ok(()), |res, curr| res.and(curr))` pattern of the source: every step
runs on the state produced by the previous one and the first error is kept. -/
def runEager : SPoolJup → List Step → SPoolJup × Option SErr
  | m, [] => (m, none)
  | m, s :: rest =>
      let r1 := s m
      let r2 := runEager r1.1 rest
      (r2.1, r1.2 <|> r2.2)

/-- Per-asset sub-update (the body of the indexed loop in `update`): skip
unbound slots; derive the reserve address, run the calculator update, then
refresh the reserves balance if the reserve account was fetched. The
calculator state and the balance are written back even when the other part
failed, and the error kept is the calculator error first. -/
def updateLstStep (ataF : LstState → LstData → Except SErr Nat)
    (calcUpd : SolValCalc → AccountMap → SolValCalc × Option SErr)
    (am : AccountMap) (i : Nat) : Step := fun m =>
  match m.lst_data_list[i]? with
  | none => (m, none)
  | some none => (m, none)
  | some (some ld) =>
      let ataRes : Except SErr Nat :=
        match m.lst_state_list[i]? with
        | none => .error .parseError
        | some st => ataF st ld
      let cu := calcUpd ld.sol_val_calc am
      let balRes : Option Nat × Option SErr :=
        match ataRes with
        | .error e => (ld.reserves_balance, some e)
        | .ok ata =>
            match am ata with
            | none => (ld.reserves_balance, none)
            | some acct =>
                match acct.tokenBalance with
                | some b => (some b, none)
                | none => (ld.reserves_balance, some .balanceParseError)
      let ld1 : LstData :=
        { ld with sol_val_calc := cu.1, reserves_balance := balRes.1 }
      ({ m with lst_data_list := m.lst_data_list.set i (some ld1) },
        cu.2 <|> balRes.2)

/-- Pricing program sub-update: runs only when a pricing program is bound. -/
def updatePricingStep
    (ppUpd : PricingProg → AccountMap → PricingProg × Option SErr)
    (am : AccountMap) : Step := fun m =>
  match m.pricing_prog with
  | none => (m, none)
  | some pp =>
      let r := ppUpd pp am
      ({ m with pricing_prog := some r.1 }, r.2)

/-- Asset-state list sub-update: if a new list account was fetched, parse it
and reconcile; a parse failure leaves the mirror unchanged. -/
def updateLstListStep (am : AccountMap) : Step := fun m =>
  match am m.lst_state_list_addr with
  | none => (m, none)
  | some acct =>
      match acct.lstList with
      | none => (m, some .parseError)
      | some newL => (update_lst_state_list m newL, none)

/-- Pool state sub-update: on a fetched pool state account, parse it; when
the pricing program id changed, rebuild the pricing program (dropping it to
`none` when construction fails, without surfacing an error) and run its
update; finally store the new pool state. `tryPP` models
`try_pricing_prog`, which lives in this call but is an opaque aggregate
constructor. -/
def updatePoolStep
    (tryPP : PoolStateM → List LstState → Except SErr PricingProg)
    (ppUpd : PricingProg → AccountMap → PricingProg × Option SErr)
    (am : AccountMap) : Step := fun m =>
  match am m.pool_state_addr with
  | none => (m, none)
  | some acct =>
      match acct.poolState with
      | none => (m, some .parseError)
      | some ps =>
          match m.pool_state with
          | some oldPs =>
              if oldPs.pricing_program != ps.pricing_program then
                match tryPP ps m.lst_state_list with
                | .ok pp0 =>
                    let r := ppUpd pp0 am
                    ({ m with pricing_prog := some r.1,
                              pool_state := some ps }, r.2)
                | .error _ =>
                    ({ m with pricing_prog := none,
                              pool_state := some ps }, none)
              else ({ m with pool_state := some ps }, none)
          | none => ({ m with pool_state := some ps }, none)

/-- LP supply sub-update: after the pool state was stored, refresh the LP
token supply if its mint account was fetched; a parse failure is recorded
without touching the stored supply. -/
def updateLpStep (am : AccountMap) : Step := fun m =>
  match m.pool_state with
  | none => (m, none)
  | some ps =>
      match am ps.lp_token_mint with
      | none => (m, none)
      | some acct =>
          match acct.mintSupply with
          | some s => ({ m with lp_mint_supply := some s }, none)
          | none => (m, some .supplyParseError)

/-- The ordered sub-update list of one refresh: per-asset updates over the
initial binding list length, then pricing, asset list, pool state, LP
supply. -/
def updateSteps (ataF : LstState → LstData → Except SErr Nat)
    (calcUpd : SolValCalc → AccountMap → SolValCalc × Option SErr)
    (ppUpd : PricingProg → AccountMap → PricingProg × Option SErr)
    (tryPP : PoolStateM → List LstState → Except SErr PricingProg)
    (am : AccountMap) (m : SPoolJup) : List Step :=
  (List.range m.lst_data_list.length).map (updateLstStep ataF calcUpd am) ++
    [updatePricingStep ppUpd am, updateLstListStep am,
      updatePoolStep tryPP ppUpd am, updateLpStep am]

/-- The refresh (`Amm::update` for `SPoolJup`). -/
def update (ataF : LstState → LstData → Except SErr Nat)
    (calcUpd : SolValCalc → AccountMap → SolValCalc × Option SErr)
    (ppUpd : PricingProg → AccountMap → PricingProg × Option SErr)
    (tryPP : PoolStateM → List LstState → Except SErr PricingProg)
    (m : SPoolJup) (am : AccountMap) : SPoolJup × Option SErr :=
  runEager m (updateSteps ataF calcUpd ppUpd tryPP am m)

/-- Applying every sub-update in order, unconditionally: the mirror obtained
when no failure is allowed to block later sub-updates. -/
def applyAllSteps (m : SPoolJup) (ss : List Step) : SPoolJup :=
  ss.foldl (fun m s => (s m).1) m

/-- The per-step errors, in processing order, along the state thread. -/
def stepErrors : SPoolJup → List Step → List (Option SErr)
  | _, [] => []
  | m, s :: rest => (s m).2 :: stepErrors (s m).1 rest

/-! ## Aggregator trait stubs (`Amm::quote`, `Amm::get_swap_and_account_metas`)

Both trait-level entrypoints are `todo!()` in the source: they panic for
every input. A panic is modelled as an explicit `panicked` outcome. -/

/-- Outcome of a call that may panic. -/
inductive PanicOr (α : Type) where
  | panicked
  | ok (a : α)
  deriving Repr

/-- Swap request parameters of the trait surface; only their presence
matters, the stub never inspects them. -/
structure SwapParamsM where
  inAmount : Nat
  outAmount : Nat
  sourceMint : Nat
  destinationMint : Nat
  deriving Repr, DecidableEq

/-- Result type of the trait swap assembly; never produced by the stub. -/
structure SwapAndAccountMetasM where
  accountMetas : List Nat
  deriving Repr, DecidableEq

/-- `Amm::quote` for `SPoolJup`: the body is `todo!()`. -/
def amm_quote (_m : SPoolJup) (_qp : QuoteParams) : PanicOr Quote :=
  .panicked

/-- `Amm::get_swap_and_account_metas` for `SPoolJup`: the body is
`todo!()`. -/
def amm_get_swap_and_account_metas (_m : SPoolJup) (_sp : SwapParamsM) :
    PanicOr SwapAndAccountMetasM :=
  .panicked

/-! ## Instruction assembler (`swap_exact_in_ix_full`)

The generated base builder `swap_exact_in_ix`, the header codec
`SwapExactInIxData`, `index_to_u32` and the two account-list extenders live
in s-controller-lib and s-controller-interface outside the provided sources;
they are modelled from the spec: the instruction data is a fixed header of
two 32-bit variable-account counts, two 32-bit asset indices and two 64-bit
amounts, little endian, followed by no tail; the account list is the fixed
keys followed by the appended variable accounts. -/

/-- Error kinds of the assembler. -/
inductive IxErr where
  | overflow
  | mathError
  deriving Repr, DecidableEq

/-- An account reference in an instruction account list. -/
structure AccountMeta where
  pubkey : Nat
  isSigner : Bool
  isWritable : Bool
  deriving Repr, DecidableEq

/-- An assembled instruction: program id, account list, data bytes. -/
structure Instruction where
  programId : Nat
  accounts : List AccountMeta
  data : List Nat
  deriving Repr, DecidableEq

/-- Little-endian bytes of a 32-bit value. -/
def u32le (n : Nat) : List Nat :=
  [n % 256, n / 256 % 256, n / 65536 % 256, n / 16777216 % 256]

/-- Little-endian bytes of a 64-bit value. -/
def u64le (n : Nat) : List Nat :=
  [n % 256, n / 256 % 256, n / 65536 % 256, n / 16777216 % 256,
    n / 4294967296 % 256, n / 1099511627776 % 256,
    n / 281474976710656 % 256, n / 72057594037927936 % 256]

/-- Decode four little-endian bytes into a 32-bit value. -/
def decodeU32le (l : List Nat) : Nat :=
  match l with
  | [b0, b1, b2, b3] => b0 + 256 * b1 + 65536 * b2 + 16777216 * b3
  | _ => 0

/-- Decode eight little-endian bytes into a 64-bit value. -/
def decodeU64le (l : List Nat) : Nat :=
  match l with
  | [b0, b1, b2, b3, b4, b5, b6, b7] =>
      b0 + 256 * b1 + 65536 * b2 + 16777216 * b3 + 4294967296 * b4 +
        1099511627776 * b5 + 281474976710656 * b6 +
        72057594037927936 * b7
  | _ => 0

/-- Header fields of the exact-in swap instruction (`SwapExactInIxArgs`). -/
structure SwapExactInIxArgs where
  srcLstValueCalcAccs : Nat
  dstLstValueCalcAccs : Nat
  srcLstIndex : Nat
  dstLstIndex : Nat
  minAmountOut : Nat
  amount : Nat
  deriving Repr, DecidableEq

/-- Modelled from the spec (`SwapExactInIxData` serialization is generated
code outside the provided sources): the fixed header region, in field
order, little endian. -/
def serializeSwapExactInIxData (a : SwapExactInIxArgs) : List Nat :=
  u32le a.srcLstValueCalcAccs ++ u32le a.dstLstValueCalcAccs ++
    u32le a.srcLstIndex ++ u32le a.dstLstIndex ++
    u64le a.minAmountOut ++ u64le a.amount

/-- Modelled from the spec (generated base builder `swap_exact_in_ix`
outside the provided sources): emit the instruction with the fixed account
keys and the serialized header as its whole data. -/
def swap_exact_in_ix (programId : Nat) (keys : List AccountMeta)
    (a : SwapExactInIxArgs) : Instruction :=
  { programId := programId, accounts := keys,
    data := serializeSwapExactInIxData a }

/-- Modelled from the spec (`index_to_u32` lives in s-controller-lib outside
the provided sources): index values must fit the 32-bit unsigned range,
otherwise fail with an overflow error. -/
def index_to_u32 (i : Nat) : Except IxErr Nat :=
  if i ≤ U32MAX then .ok i else .error .overflow

/-- Modelled from the spec
(`ix_extend_with_src_dst_sol_value_calculator_accounts` lives in
s-controller-lib outside the provided sources): append the input then the
output calculator accounts and return the two appended counts, failing when
a count does not fit 32 bits. -/
def ix_extend_with_src_dst_sol_value_calculator_accounts (ix : Instruction)
    (srcAccs dstAccs : List AccountMeta) :
    Except Unit (Instruction × Nat × Nat) :=
  if srcAccs.length ≤ U32MAX ∧ dstAccs.length ≤ U32MAX then
    .ok ({ ix with accounts := ix.accounts ++ srcAccs ++ dstAccs },
      srcAccs.length, dstAccs.length)
  else .error ()

/-- The account entry standing for the pricing program itself. -/
def pricingProgramMeta (pricingProgramId : Nat) : AccountMeta :=
  ⟨pricingProgramId, false, false⟩

/-- Modelled from the spec
(`ix_extend_with_pricing_program_price_swap_accounts` lives in
s-controller-lib outside the provided sources): append the pricing program
own identifier as an account entry, then the pricing accounts. -/
def ix_extend_with_pricing_program_price_swap_accounts (ix : Instruction)
    (pricingAccounts : List AccountMeta) (pricingProgramId : Nat) :
    Except Unit Instruction :=
  .ok { ix with accounts :=
    ix.accounts ++ (pricingProgramMeta pricingProgramId :: pricingAccounts) }

/-- In-place header overwrite: the second serialization pass writes over the
data buffer from offset zero, leaving any bytes past the written region
unchanged. -/
def overwriteHead (newHead old : List Nat) : List Nat :=
  newHead ++ old.drop newHead.length

/-- The two-pass assembler (`swap_exact_in_ix_full`): convert both indices
to 32 bits first, emit the base instruction with zero counts, append the
calculator accounts, append the pricing accounts, then re-serialize the
header in place with the true counts. -/
def swap_exact_in_ix_full (programId : Nat) (keys : List AccountMeta)
    (srcLstIndex dstLstIndex minAmountOut amount : Nat)
    (srcAccs dstAccs pricingAccounts : List AccountMeta)
    (pricingProgramId : Nat) : Except IxErr Instruction :=
  match index_to_u32 srcLstIndex with
  | .error e => .error e
  | .ok srcU =>
  match index_to_u32 dstLstIndex with
  | .error e => .error e
  | .ok dstU =>
  let ix := swap_exact_in_ix programId keys
    ⟨0, 0, srcU, dstU, minAmountOut, amount⟩
  match ix_extend_with_src_dst_sol_value_calculator_accounts ix srcAccs
      dstAccs with
  | .error _ => .error .mathError
  | .ok (ix1, srcCount, dstCount) =>
  match ix_extend_with_pricing_program_price_swap_accounts ix1
      pricingAccounts pricingProgramId with
  | .error _ => .error .mathError
  | .ok ix2 =>
  let newData := overwriteHead
    (serializeSwapExactInIxData
      ⟨srcCount, dstCount, srcU, dstU, minAmountOut, amount⟩) ix2.data
  .ok { ix2 with data := newData }

/-! ## Concrete fixtures used by witnesses and counterexamples -/

/-- A calculator converting one to one in both directions. -/
def svcId (mint prog : Nat) : SolValCalc :=
  ⟨mint, prog, fun n => .ok (n, n), fun n => .ok (n, n)⟩

/-- A calculator whose lst-to-sol conversion floors by 1000. -/
def svcDiv1000 (mint prog : Nat) : SolValCalc :=
  ⟨mint, prog, fun n => .ok (n / 1000, n / 1000), fun n => .ok (n, n)⟩

/-- A calculator whose sol-to-lst conversion always yields zero. -/
def svcZeroOut (mint prog : Nat) : SolValCalc :=
  ⟨mint, prog, fun n => .ok (n, n), fun _ => .ok (0, 0)⟩

/-- A pricing program quoting one more than the input sol value. -/
def ppGain : PricingProg := ⟨fun _ _ _ sol => .ok (sol + 1)⟩

/-- A pricing program quoting exactly the input sol value. -/
def ppFlat : PricingProg := ⟨fun _ _ _ sol => .ok sol⟩

/-- A pricing program quoting half of the input sol value. -/
def ppHalf : PricingProg := ⟨fun _ _ _ sol => .ok (sol / 2)⟩

/-- Test asset state, mint 1, calculator program 100. -/
def stA : LstState := ⟨1, 100, 0⟩

/-- Test asset state, mint 2, calculator program 100. -/
def stB : LstState := ⟨2, 100, 0⟩

/-- Test asset state, mint 3, calculator program 100. -/
def stC : LstState := ⟨3, 100, 0⟩

/-- Binding for `stA`: one-to-one calculator, reserves 1000000. -/
def dA : LstData := ⟨svcId 1 100, some 1000000, 7⟩

/-- Binding for `stB`: one-to-one calculator, reserves 500000. -/
def dB : LstData := ⟨svcId 2 100, some 500000, 7⟩

/-- Binding for `stC`: one-to-one calculator, reserves 250000. -/
def dC : LstData := ⟨svcId 3 100, some 250000, 7⟩

/-- Test pool state: zero accounted total, zero fee bps. -/
def psT : PoolStateM := ⟨0, 0, 50, 9⟩

/-- A fully fetched two-asset test mirror with the given pricing program and
bindings. -/
def mQuote (pp : PricingProg) (ida oda : LstData) : SPoolJup :=
  ⟨11, 12, 13, none, some psT, [stA, stB], some pp, [some ida, some oda]⟩

/-- Mirror whose pricing program would gain sol value on the swap. -/
def mGain : SPoolJup := mQuote ppGain dA dB

/-- Mirror whose input calculator floors small amounts to zero sol value. -/
def mZeroIn : SPoolJup := mQuote ppFlat ⟨svcDiv1000 1 100, some 1000000, 7⟩ dB

/-- Mirror whose output calculator yields zero native units. -/
def mZeroOut : SPoolJup := mQuote ppFlat dA ⟨svcZeroOut 2 100, some 500000, 7⟩

/-- Mirror with a flat pricing program, for the liquidity flag. -/
def mFlat : SPoolJup := mQuote ppFlat dA dB

/-- Mirror with a half-value pricing program, for the fee percentage. -/
def mHalf : SPoolJup := mQuote ppHalf dA dB

/-- Quote request from mint 1 to mint 2 of a given amount. -/
def qpAB (amt : Nat) : QuoteParams := ⟨amt, 1, 2⟩

/-- The quote expected from `mHalf` for an input of 100: half the value is
captured as fee, fee percentage one half. -/
def qW7 : Quote := ⟨false, 100, 50, 2, 50, (50 : ℚ) / 100⟩

/-- One-asset mirror (mint 1 bound), for reconciliation tests. -/
def mRec1 : SPoolJup := ⟨11, 12, 13, none, none, [stA], none, [some dA]⟩

/-- Three-asset mirror (mints 1, 2, 3 bound), for reconciliation tests. -/
def mRec3 : SPoolJup :=
  ⟨11, 12, 13, none, none, [stA, stB, stC], none, [some dA, some dB, some dC]⟩

/-! # Theorems -/

/-! ## Helper lemmas on lists -/

theorem zip_all_identity_iff (l1 l2 : List LstState) :
    ((l1.zip l2).all (fun p =>
        p.1.mint == p.2.mint &&
          p.1.sol_value_calculator == p.2.sol_value_calculator) = true) ↔
      ∀ (k : Nat) (a b : LstState), l1[k]? = some a → l2[k]? = some b →
        a.mint = b.mint ∧ a.sol_value_calculator = b.sol_value_calculator := by
  induction l1 generalizing l2 with
  | nil =>
      simp only [List.zip_nil_left, List.all_nil, true_iff]
      intro k a b ha
      simp at ha
  | cons x t ih =>
      cases l2 with
      | nil =>
          simp only [List.zip_nil_right, List.all_nil, true_iff]
          intro k a b _ hb
          simp at hb
      | cons y s =>
          simp only [List.zip_cons_cons, List.all_cons, Bool.and_eq_true,
            beq_iff_eq]
          constructor
          · rintro ⟨⟨hm, hc⟩, hrest⟩ k a b ha hb
            cases k with
            | zero =>
                simp only [List.getElem?_cons_zero, Option.some.injEq] at ha hb
                subst ha; subst hb; exact ⟨hm, hc⟩
            | succ n =>
                simp only [List.getElem?_cons_succ] at ha hb
                exact (ih s).mp hrest n a b ha hb
          · intro h
            refine ⟨?_, (ih s).mpr ?_⟩
            · have := h 0 x y (by simp) (by simp)
              exact ⟨this.1, this.2⟩
            · intro k a b ha hb
              exact h (k + 1) a b (by simpa using ha) (by simpa using hb)

theorem find?_eq_some_of_first {α : Type} (p : α → Bool) (l : List α)
    (j : Nat) (x : α) (hj : l[j]? = some x) (hx : p x = true)
    (hlt : ∀ k, k < j → ∀ y, l[k]? = some y → p y = false) :
    l.find? p = some x := by
  induction l generalizing j with
  | nil => simp at hj
  | cons a t ih =>
      cases j with
      | zero =>
          simp only [List.getElem?_cons_zero, Option.some.injEq] at hj
          subst hj
          simp [List.find?, hx]
      | succ n =>
          have ha : p a = false :=
            hlt 0 (Nat.succ_pos n) a (by simp)
          simp only [List.getElem?_cons_succ] at hj
          rw [List.find?]
          rw [ha]
          exact ih n hj (fun k hk y hy =>
            hlt (k + 1) (Nat.succ_lt_succ hk) y (by simpa using hy))

theorem mint_index_inj (l : List LstState)
    (hn : (l.map LstState.mint).Nodup) (i j : Nat) (a b : LstState)
    (ha : l[i]? = some a) (hb : l[j]? = some b) (hm : a.mint = b.mint) :
    i = j := by
  have hil : i < l.length := (List.getElem?_eq_some_iff.mp ha).1
  have hmap_i : (l.map LstState.mint)[i]? = some a.mint := by
    rw [List.getElem?_map, ha]; rfl
  have hmap_j : (l.map LstState.mint)[j]? = some b.mint := by
    rw [List.getElem?_map, hb]; rfl
  refine List.getElem?_inj ?_ hn ?_
  · simpa using hil
  · rw [hmap_i, hmap_j, hm]

theorem rebuildLstDataList_length (oldL : List LstState)
    (oldD : List (Option LstData)) (newL : List LstState)
    (fullOldD : List (Option LstData)) :
    (rebuildLstDataList oldL oldD newL fullOldD).length = newL.length := by
  induction oldL generalizing oldD newL with
  | nil => cases oldD <;> cases newL <;> simp [rebuildLstDataList]
  | cons oSt oT ih =>
      cases oldD with
      | nil => cases newL <;> simp [rebuildLstDataList]
      | cons oD dT =>
          cases newL with
          | nil => simp [rebuildLstDataList]
          | cons nSt nT => simpa [rebuildLstDataList] using ih dT nT

theorem rebuildLstDataList_getElem? (oldL : List LstState)
    (oldD : List (Option LstData)) (newL : List LstState)
    (fullOldD : List (Option LstData)) (i : Nat)
    (h1 : i < oldL.length) (h2 : i < oldD.length) (h3 : i < newL.length) :
    (rebuildLstDataList oldL oldD newL fullOldD)[i]? =
      some (rebuildEntry fullOldD (oldL.get ⟨i, h1⟩) (oldD.get ⟨i, h2⟩)
        (newL.get ⟨i, h3⟩)) := by
  induction oldL generalizing oldD newL i with
  | nil => simp at h1
  | cons oSt oT ih =>
      cases oldD with
      | nil => simp at h2
      | cons oD dT =>
          cases newL with
          | nil => simp at h3
          | cons nSt nT =>
              cases i with
              | zero => simp [rebuildLstDataList]
              | succ k =>
                  simp only [rebuildLstDataList, List.getElem?_cons_succ,
                    List.get_cons_succ]
                  exact ih dT nT k (Nat.lt_of_succ_lt_succ h1)
                    (Nat.lt_of_succ_lt_succ h2) (Nat.lt_of_succ_lt_succ h3)

/-! ## Claim C8 — fast-path frame property of reconciliation -/

/-- Claim C8: when the new asset-state list has the same length as the old
one and, at every index, both the mint and the linked calculator program
identifier are unchanged, `update_lst_state_list` leaves the whole binding
list and every other mirror field untouched and replaces only the stored
asset-list snapshot. -/
theorem c8_fast_path_frame (m : SPoolJup) (newL : List LstState)
    (hlen : m.lst_state_list.length = newL.length)
    (hall : ∀ (k : Nat) (a b : LstState), m.lst_state_list[k]? = some a →
      newL[k]? = some b →
      a.mint = b.mint ∧ a.sol_value_calculator = b.sol_value_calculator) :
    update_lst_state_list m newL = { m with lst_state_list := newL } := by
  unfold update_lst_state_list
  rw [if_pos]
  rw [Bool.and_eq_true]
  exact ⟨by simpa using hlen, (zip_all_identity_iff _ _).mpr hall⟩

/-- Claim C8 witness: a concrete fast-path reconciliation where only an
accounting field of the single asset changed. -/
theorem c8_fast_path_frame_witness :
    update_lst_state_list mRec1 [⟨1, 100, 42⟩] =
      { mRec1 with lst_state_list := [⟨1, 100, 42⟩] } :=
  c8_fast_path_frame mRec1 [⟨1, 100, 42⟩] rfl (by
    intro k a b ha hb
    match k with
    | 0 =>
        simp only [mRec1, stA, List.getElem?_cons_zero, Option.some.injEq]
          at ha hb
        subst ha; subst hb; exact ⟨rfl, rfl⟩
    | k + 1 => simp [mRec1] at ha)

/-! ## Claim C2 — identity preservation across reconciliation -/

/-- Claim C2 counterexample: the old list holds only mint 1, with a bound
calculator; the new list `[stB, stA]` is a strict superset placing the old
identity at index 1. The claim as stated demands the binding to reappear at
index 1, but the zip-bounded rebuild never reaches that index: no binding
survives at all. -/
theorem c2_superset_counterexample :
    mRec1.lst_data_list = [some dA] ∧
    (dA.sol_val_calc.lstMint = stA.mint ∧
      dA.sol_val_calc.programId = stA.sol_value_calculator) ∧
    [stB, stA][1]? = some stA ∧
    (update_lst_state_list mRec1 [stB, stA]).lst_data_list = [none, none] :=
  ⟨rfl, ⟨rfl, rfl⟩, rfl, rfl⟩

/-- Claim C2 (amended): when the bindings are coherent with their slots,
mints are unique, and the new index of a surviving identity lies below the
old list length (the zip bound of the rebuild), the previously bound
calculator reappears unchanged at the index of its identity in the new
list. -/
theorem c2_identity_preservation (m : SPoolJup) (newL : List LstState)
    (i j : Nat) (ld : LstData) (ns : LstState)
    (hlen : m.lst_data_list.length = m.lst_state_list.length)
    (hcoh : ∀ (k : Nat) (ld2 : LstData),
      m.lst_data_list[k]? = some (some ld2) →
      ∃ st, m.lst_state_list[k]? = some st ∧
        ld2.sol_val_calc.lstMint = st.mint ∧
        ld2.sol_val_calc.programId = st.sol_value_calculator)
    (huniq : (m.lst_state_list.map LstState.mint).Nodup)
    (hj : m.lst_data_list[j]? = some (some ld))
    (hi : newL[i]? = some ns)
    (hmint : ld.sol_val_calc.lstMint = ns.mint)
    (hprog : ld.sol_val_calc.programId = ns.sol_value_calculator)
    (hrange : i < m.lst_state_list.length) :
    (update_lst_state_list m newL).lst_data_list[i]? = some (some ld) := by
  obtain ⟨stj, hstj, hldm, hldp⟩ := hcoh j ld hj
  have hilen : i < newL.length := (List.getElem?_eq_some_iff.mp hi).1
  have hdl : i < m.lst_data_list.length := by rw [hlen]; exact hrange
  have hni2 : newL[i] = ns := by
    have h0 := List.getElem?_eq_getElem hilen
    rw [hi] at h0
    simpa using h0.symm
  have hsti : m.lst_state_list[i]? = some (m.lst_state_list[i]) :=
    List.getElem?_eq_getElem hrange
  unfold update_lst_state_list
  by_cases hfast : (m.lst_state_list.length == newL.length &&
      (m.lst_state_list.zip newL).all (fun p =>
        p.1.mint == p.2.mint &&
          p.1.sol_value_calculator == p.2.sol_value_calculator)) = true
  case pos =>
    rw [if_pos hfast]
    rw [Bool.and_eq_true] at hfast
    have hident := (zip_all_identity_iff _ _).mp hfast.2 i
      (m.lst_state_list[i]) ns hsti hi
    have hij : j = i := by
      refine mint_index_inj _ huniq j i stj _ hstj hsti ?_
      rw [← hldm, hmint, hident.1]
    rw [hij] at hj
    exact hj
  case neg =>
    rw [if_neg hfast]
    show (rebuildLstDataList m.lst_state_list m.lst_data_list newL
      m.lst_data_list)[i]? = some (some ld)
    rw [rebuildLstDataList_getElem? m.lst_state_list m.lst_data_list newL
      m.lst_data_list i hrange hdl hilen]
    simp only [List.get_eq_getElem]
    rw [hni2]
    by_cases hm : (m.lst_state_list[i]).mint = ns.mint
    case pos =>
      have hij : j = i := by
        refine mint_index_inj _ huniq j i stj _ hstj hsti ?_
        rw [← hldm, hmint, hm]
      rw [hij] at hj
      have hdi : m.lst_data_list[i] = some ld := by
        have h0 := List.getElem?_eq_getElem hdl
        rw [hj] at h0
        simpa using h0.symm
      simp [rebuildEntry, hm, hdi, hprog]
    case neg =>
      have hfind : m.lst_data_list.find? (fun opt =>
          match opt with
          | some ld2 =>
              ld2.sol_val_calc.lstMint == ns.mint &&
                ld2.sol_val_calc.programId == ns.sol_value_calculator
          | none => false) = some (some ld) := by
        refine find?_eq_some_of_first _ m.lst_data_list j (some ld) hj
          (by simp [hmint, hprog]) ?_
        intro k hk y hy
        match y with
        | none => rfl
        | some ld2 =>
            cases hb : (ld2.sol_val_calc.lstMint == ns.mint &&
                ld2.sol_val_calc.programId == ns.sol_value_calculator) with
            | false => exact hb
            | true =>
                rw [Bool.and_eq_true] at hb
                obtain ⟨hm2, hp2⟩ := hb
                obtain ⟨st2, hst2, hld2m, _⟩ := hcoh k ld2 hy
                have hkj : k = j := by
                  refine mint_index_inj _ huniq k j st2 stj hst2 hstj ?_
                  rw [← hld2m, beq_iff_eq.mp hm2, ← hmint, hldm]
                exact absurd hkj (Nat.ne_of_lt hk)
      simp [rebuildEntry, hm, hfind, Option.join]

/-- Claim C2 witness: reconciliation where the new list drops the last of
three assets and reorders the remaining two. Both surviving bindings
reappear unchanged at their new indices and the dropped binding is gone. -/
theorem c2_identity_preservation_witness :
    (update_lst_state_list mRec3 [stB, stA]).lst_data_list[0]? =
        some (some dB) ∧
      (update_lst_state_list mRec3 [stB, stA]).lst_data_list[1]? =
        some (some dA) ∧
      (update_lst_state_list mRec3 [stB, stA]).lst_data_list =
        [some dB, some dA] := by
  have hcoh : ∀ (k : Nat) (ld2 : LstData),
      mRec3.lst_data_list[k]? = some (some ld2) →
      ∃ st, mRec3.lst_state_list[k]? = some st ∧
        ld2.sol_val_calc.lstMint = st.mint ∧
        ld2.sol_val_calc.programId = st.sol_value_calculator := by
    intro k ld2 h
    match k with
    | 0 =>
        simp only [mRec3, List.getElem?_cons_zero, Option.some.injEq] at h
        subst h
        exact ⟨stA, rfl, rfl, rfl⟩
    | 1 =>
        simp only [mRec3, List.getElem?_cons_succ, List.getElem?_cons_zero,
          Option.some.injEq] at h
        subst h
        exact ⟨stB, rfl, rfl, rfl⟩
    | 2 =>
        simp only [mRec3, List.getElem?_cons_succ, List.getElem?_cons_zero,
          Option.some.injEq] at h
        subst h
        exact ⟨stC, rfl, rfl, rfl⟩
    | k + 3 => simp [mRec3] at h
  refine ⟨?_, ?_, rfl⟩
  · exact c2_identity_preservation mRec3 [stB, stA] 0 1 dB stB rfl hcoh
      (by decide) rfl rfl rfl rfl (by decide)
  · exact c2_identity_preservation mRec3 [stB, stA] 1 0 dA stA rfl hcoh
      (by decide) rfl rfl rfl rfl (by decide)

/-! ## Quote engine lemmas -/

/-- Inversion of a successful quote: names every intermediate value of the
successful path and gives the explicit returned quote. -/
theorem quote_ok_spine (m : SPoolJup) (qp : QuoteParams)
    {ps : PoolStateM} {pp : PricingProg} {ist : LstState} {idata : LstData}
    {ps1 : PoolStateM} {ls1 : LstState} {rb1 : Nat} {ost : LstState}
    {odata : LstData} {ps2 : PoolStateM} {ls2 : LstState} {orb : Nat}
    {iv : Nat × Nat} (q : Quote)
    (h1 : m.pool_state = some ps)
    (h2 : m.pricing_prog = some pp)
    (h3 : find_ready_lst m qp.inputMint = .ok (ist, idata))
    (h4 : apply_sync_sol_value ps ist idata = .ok (ps1, ls1, rb1))
    (h5 : find_ready_lst m qp.outputMint = .ok (ost, odata))
    (h6 : apply_sync_sol_value ps1 ost odata = .ok (ps2, ls2, orb))
    (h7 : idata.sol_val_calc.lstToSol qp.amount = .ok iv)
    (hq : quote_swap_exact_in m qp = .ok q) :
    ∃ outSol ov pf fv,
      iv.1 ≠ 0 ∧
      pp.quoteExactIn qp.inputMint qp.outputMint qp.amount iv.1 = .ok outSol ∧
      outSol ≤ iv.1 ∧
      odata.sol_val_calc.solToLst outSol = .ok ov ∧
      ov.1 ≠ 0 ∧
      calc_swap_protocol_fees iv.1 outSol ov.1 ps2.trading_protocol_fee_bps
        = .ok pf ∧
      ¬ U64MAX < ov.1 + pf ∧
      odata.sol_val_calc.solToLst (iv.1 - outSol) = .ok fv ∧
      q = { notEnoughLiquidity := decide (orb < ov.1 + pf),
            inAmount := qp.amount, outAmount := ov.1,
            feeMint := qp.outputMint, feeAmount := fv.1,
            feePct := ((iv.1 - outSol : Nat) : ℚ) / (iv.1 : ℚ) } := by
  unfold quote_swap_exact_in at hq
  simp only [h1, h2, h3, h4, h5, h6, h7] at hq
  by_cases h0 : iv.1 = 0
  · simp [if_pos h0] at hq
  · simp only [if_neg h0] at hq
    cases h9 : pp.quoteExactIn qp.inputMint qp.outputMint qp.amount iv.1 with
    | error e => simp [h9] at hq
    | ok outSol =>
        simp only [h9] at hq
        by_cases hlt : iv.1 < outSol
        · simp [if_pos hlt] at hq
        · simp only [if_neg hlt] at hq
          cases h10 : odata.sol_val_calc.solToLst outSol with
          | error e => simp [h10] at hq
          | ok ov =>
              simp only [h10] at hq
              by_cases h11 : ov.1 = 0
              · simp [if_pos h11] at hq
              · simp only [if_neg h11] at hq
                cases h12 : calc_swap_protocol_fees iv.1 outSol ov.1
                    ps2.trading_protocol_fee_bps with
                | error e => simp [h12] at hq
                | ok pf =>
                    simp only [h12] at hq
                    by_cases h13 : U64MAX < ov.1 + pf
                    · simp [if_pos h13] at hq
                    · simp only [if_neg h13] at hq
                      simp only [amtsAfterFee, if_neg hlt] at hq
                      simp only [calc_quote_fees] at hq
                      simp only [if_neg h0] at hq
                      cases h14 : odata.sol_val_calc.solToLst
                          (iv.1 - outSol) with
                      | error e => simp [h14] at hq
                      | ok fv =>
                          simp only [h14, Except.ok.injEq] at hq
                          refine ⟨outSol, ov, pf, fv, h0, rfl,
                            Nat.le_of_not_lt hlt, h10, h11, h12, h13, h14,
                            hq.symm⟩

/-! ## Claim C1 — value-loss invariant -/

/-- Claim C1: with pool state, pricing program and both bindings with
reserve balances present, when the pricing program quotes an output sol
value strictly greater than the input sol value, the quote fails with the
value-loss error and is never a quote; consequently every returned quote
satisfies output sol value at most input sol value. -/
theorem c1_value_loss (m : SPoolJup) (qp : QuoteParams)
    {ps : PoolStateM} {pp : PricingProg} {ist : LstState} {idata : LstData}
    {ps1 : PoolStateM} {ls1 : LstState} {rb1 : Nat} {ost : LstState}
    {odata : LstData} {ps2 : PoolStateM} {ls2 : LstState} {orb : Nat}
    {iv : Nat × Nat} {outSol : Nat}
    (h1 : m.pool_state = some ps)
    (h2 : m.pricing_prog = some pp)
    (h3 : find_ready_lst m qp.inputMint = .ok (ist, idata))
    (h4 : apply_sync_sol_value ps ist idata = .ok (ps1, ls1, rb1))
    (h5 : find_ready_lst m qp.outputMint = .ok (ost, odata))
    (h6 : apply_sync_sol_value ps1 ost odata = .ok (ps2, ls2, orb))
    (h7 : idata.sol_val_calc.lstToSol qp.amount = .ok iv)
    (h8 : iv.1 ≠ 0)
    (h9 : pp.quoteExactIn qp.inputMint qp.outputMint qp.amount iv.1
      = .ok outSol) :
    (iv.1 < outSol →
      quote_swap_exact_in m qp = .error .poolWouldLoseSolValue) ∧
    ∀ q, quote_swap_exact_in m qp = .ok q → outSol ≤ iv.1 := by
  constructor
  · intro hlt
    unfold quote_swap_exact_in
    simp only [h1, h2, h3, h4, h5, h6, h7, h9, if_neg h8, if_pos hlt]
  · intro q hq
    obtain ⟨outSol2, _, _, _, _, h9b, hle, _⟩ :=
      quote_ok_spine m qp q h1 h2 h3 h4 h5 h6 h7 hq
    rw [h9] at h9b
    cases h9b
    exact hle

/-- Claim C1 witness: a concrete pool whose pricing program quotes one more
sol value than the input; the quote fails with the value-loss error. -/
theorem c1_value_loss_witness :
    quote_swap_exact_in mGain (qpAB 100) = .error .poolWouldLoseSolValue :=
  (c1_value_loss mGain (qpAB 100) rfl rfl rfl rfl rfl rfl rfl
    (by decide) rfl).1 (by decide)

/-! ## Claim C5 — zero-value rejection -/

/-- Claim C5: when the input conversion floors to zero sol value the quote
fails with the zero-value error; when the output conversion floors to zero
native units the quote fails with the zero-value error; and a returned
quote never carries a zero output amount. -/
theorem c5_zero_value (m : SPoolJup) (qp : QuoteParams)
    {ps : PoolStateM} {pp : PricingProg} {ist : LstState} {idata : LstData}
    {ps1 : PoolStateM} {ls1 : LstState} {rb1 : Nat} {ost : LstState}
    {odata : LstData} {ps2 : PoolStateM} {ls2 : LstState} {orb : Nat}
    {iv : Nat × Nat}
    (h1 : m.pool_state = some ps)
    (h2 : m.pricing_prog = some pp)
    (h3 : find_ready_lst m qp.inputMint = .ok (ist, idata))
    (h4 : apply_sync_sol_value ps ist idata = .ok (ps1, ls1, rb1))
    (h5 : find_ready_lst m qp.outputMint = .ok (ost, odata))
    (h6 : apply_sync_sol_value ps1 ost odata = .ok (ps2, ls2, orb))
    (h7 : idata.sol_val_calc.lstToSol qp.amount = .ok iv) :
    (iv.1 = 0 → quote_swap_exact_in m qp = .error .zeroValue) ∧
    (∀ (outSol : Nat) (ov : Nat × Nat),
      pp.quoteExactIn qp.inputMint qp.outputMint qp.amount iv.1
        = .ok outSol →
      ¬ iv.1 < outSol →
      odata.sol_val_calc.solToLst outSol = .ok ov → ov.1 = 0 →
      quote_swap_exact_in m qp = .error .zeroValue) ∧
    ∀ q, quote_swap_exact_in m qp = .ok q → q.outAmount ≠ 0 := by
  refine ⟨?_, ?_, ?_⟩
  · intro h0
    unfold quote_swap_exact_in
    simp only [h1, h2, h3, h4, h5, h6, h7, if_pos h0]
  · intro outSol ov h9 hlt h10 h11
    unfold quote_swap_exact_in
    by_cases h0 : iv.1 = 0
    · simp only [h1, h2, h3, h4, h5, h6, h7, if_pos h0]
    · simp only [h1, h2, h3, h4, h5, h6, h7, if_neg h0, h9, if_neg hlt,
        h10, if_pos h11]
  · intro q hq
    obtain ⟨outSol, ov, pf, fv, _, _, _, _, hov, _, _, _, hqe⟩ :=
      quote_ok_spine m qp q h1 h2 h3 h4 h5 h6 h7 hq
    rw [hqe]
    simpa using hov

/-- Claim C5 witness: a pool whose input calculator floors 100 native units
to zero sol value, and a pool whose output calculator floors the priced sol
value to zero native units; both quotes fail with the zero-value error. -/
theorem c5_zero_value_witness :
    quote_swap_exact_in mZeroIn (qpAB 100) = .error .zeroValue ∧
    quote_swap_exact_in mZeroOut (qpAB 100) = .error .zeroValue := by
  constructor
  · exact (c5_zero_value mZeroIn (qpAB 100) rfl rfl rfl rfl rfl rfl rfl).1
      (by decide)
  · exact (c5_zero_value mZeroOut (qpAB 100) rfl rfl rfl rfl rfl rfl
      rfl).2.1 100 (0, 0) rfl (by decide) rfl rfl

/-! ## Claim C6 — liquidity flag, never a rejection -/

/-- Claim C6: with every step of the successful path pinned, the quote is
returned rather than rejected, and its liquidity flag is set exactly when
the quoted output amount plus the protocol fee exceeds the output asset
currently observed reserves balance. -/
theorem c6_liquidity_flag (m : SPoolJup) (qp : QuoteParams)
    {ps : PoolStateM} {pp : PricingProg} {ist : LstState} {idata : LstData}
    {ps1 : PoolStateM} {ls1 : LstState} {rb1 : Nat} {ost : LstState}
    {odata : LstData} {ps2 : PoolStateM} {ls2 : LstState} {orb : Nat}
    {iv : Nat × Nat} {outSol : Nat} {ov : Nat × Nat} {pf : Nat}
    {fv : Nat × Nat}
    (h1 : m.pool_state = some ps)
    (h2 : m.pricing_prog = some pp)
    (h3 : find_ready_lst m qp.inputMint = .ok (ist, idata))
    (h4 : apply_sync_sol_value ps ist idata = .ok (ps1, ls1, rb1))
    (h5 : find_ready_lst m qp.outputMint = .ok (ost, odata))
    (h6 : apply_sync_sol_value ps1 ost odata = .ok (ps2, ls2, orb))
    (h7 : idata.sol_val_calc.lstToSol qp.amount = .ok iv)
    (h8 : iv.1 ≠ 0)
    (h9 : pp.quoteExactIn qp.inputMint qp.outputMint qp.amount iv.1
      = .ok outSol)
    (h10 : ¬ iv.1 < outSol)
    (h11 : odata.sol_val_calc.solToLst outSol = .ok ov)
    (h12 : ov.1 ≠ 0)
    (h13 : calc_swap_protocol_fees iv.1 outSol ov.1
      ps2.trading_protocol_fee_bps = .ok pf)
    (h14 : ¬ U64MAX < ov.1 + pf)
    (h15 : odata.sol_val_calc.solToLst (iv.1 - outSol) = .ok fv) :
    quote_swap_exact_in m qp =
      .ok { notEnoughLiquidity := decide (orb < ov.1 + pf),
            inAmount := qp.amount, outAmount := ov.1,
            feeMint := qp.outputMint, feeAmount := fv.1,
            feePct := ((iv.1 - outSol : Nat) : ℚ) / (iv.1 : ℚ) } := by
  unfold quote_swap_exact_in
  simp only [h1, h2, h3, h4, h5, h6, h7, if_neg h8, h9, if_neg h10, h11,
    if_neg h12, h13, if_neg h14, amtsAfterFee, calc_quote_fees,
    if_neg h8, h15]

/-- Claim C6 witness: swapping 600000 units against reserves of 500000
yields a quote flagged as lacking liquidity instead of an error. -/
theorem c6_liquidity_flag_witness :
    quote_swap_exact_in mFlat (qpAB 600000) =
      .ok { notEnoughLiquidity := decide (500000 < 600000 + 0),
            inAmount := 600000, outAmount := 600000, feeMint := 2,
            feeAmount := 0,
            feePct := ((600000 - 600000 : Nat) : ℚ)
              / ((600000 : Nat) : ℚ) } :=
  c6_liquidity_flag mFlat (qpAB 600000) rfl rfl rfl rfl rfl rfl rfl
    (by decide) rfl (by decide) rfl (by decide) rfl (by decide) rfl

/-! ## Claim C7 — reported fee percentage -/

/-- Claim C7: every returned quote reports a fee percentage equal to the fee
sol value (input minus output sol value) divided by the input sol value,
lying within zero and one, and the fee asset is the output mint. -/
theorem c7_fee_pct (m : SPoolJup) (qp : QuoteParams)
    {ps : PoolStateM} {pp : PricingProg} {ist : LstState} {idata : LstData}
    {ps1 : PoolStateM} {ls1 : LstState} {rb1 : Nat} {ost : LstState}
    {odata : LstData} {ps2 : PoolStateM} {ls2 : LstState} {orb : Nat}
    {iv : Nat × Nat} {outSol : Nat}
    (h1 : m.pool_state = some ps)
    (h2 : m.pricing_prog = some pp)
    (h3 : find_ready_lst m qp.inputMint = .ok (ist, idata))
    (h4 : apply_sync_sol_value ps ist idata = .ok (ps1, ls1, rb1))
    (h5 : find_ready_lst m qp.outputMint = .ok (ost, odata))
    (h6 : apply_sync_sol_value ps1 ost odata = .ok (ps2, ls2, orb))
    (h7 : idata.sol_val_calc.lstToSol qp.amount = .ok iv)
    (h9 : pp.quoteExactIn qp.inputMint qp.outputMint qp.amount iv.1
      = .ok outSol) :
    ∀ q, quote_swap_exact_in m qp = .ok q →
      q.feePct = ((iv.1 - outSol : Nat) : ℚ) / (iv.1 : ℚ) ∧
      0 ≤ q.feePct ∧ q.feePct ≤ 1 ∧ q.feeMint = qp.outputMint := by
  intro q hq
  obtain ⟨outSol2, ov, pf, fv, h0, h9b, hle, _, _, _, _, _, hqe⟩ :=
    quote_ok_spine m qp q h1 h2 h3 h4 h5 h6 h7 hq
  rw [h9] at h9b
  injection h9b with he
  subst he
  subst hqe
  refine ⟨rfl, ?_, ?_, rfl⟩
  · exact div_nonneg (Nat.cast_nonneg _) (Nat.cast_nonneg _)
  · show ((iv.1 - outSol : Nat) : ℚ) / (iv.1 : ℚ) ≤ 1
    rw [div_le_one (by exact_mod_cast Nat.pos_of_ne_zero h0)]
    exact_mod_cast Nat.sub_le iv.1 outSol

/-- Claim C7 witness: a pricing program that halves the sol value yields a
quote whose fee percentage is one half, within bounds, with the output mint
as fee asset. -/
theorem c7_fee_pct_witness :
    qW7.feePct = ((100 - 50 : Nat) : ℚ) / ((100 : Nat) : ℚ) ∧
    0 ≤ qW7.feePct ∧ qW7.feePct ≤ 1 ∧ qW7.feeMint = 2 :=
  c7_fee_pct mHalf (qpAB 100) rfl rfl rfl rfl rfl rfl rfl rfl qW7
    (by rfl)

/-! ## Claim C9 — eager refresh surfacing the first error -/

theorem runEager_eq (m : SPoolJup) (ss : List Step) :
    runEager m ss = (applyAllSteps m ss, (stepErrors m ss).findSome? id) := by
  induction ss generalizing m with
  | nil => rfl
  | cons s rest ih =>
      simp only [runEager, ih]
      cases h2 : (s m).2 with
      | none => simp [applyAllSteps, stepErrors, h2]
      | some e => simp [applyAllSteps, stepErrors, h2]

/-- Claim C9: the refresh applies every sub-update eagerly rather than
short-circuiting: the resulting mirror equals the one obtained by running
every sub-update unconditionally in processing order, and the error
returned is the first error encountered along that order. -/
theorem c9_update_eager
    (ataF : LstState → LstData → Except SErr Nat)
    (calcUpd : SolValCalc → AccountMap → SolValCalc × Option SErr)
    (ppUpd : PricingProg → AccountMap → PricingProg × Option SErr)
    (tryPP : PoolStateM → List LstState → Except SErr PricingProg)
    (m : SPoolJup) (am : AccountMap) :
    update ataF calcUpd ppUpd tryPP m am =
      (applyAllSteps m (updateSteps ataF calcUpd ppUpd tryPP am m),
        (stepErrors m (updateSteps ataF calcUpd ppUpd tryPP am m)).findSome?
          id) :=
  runEager_eq m _

/-! ## Claim C10 — trait-level entrypoints are unimplemented -/

/-- Claim C10: the trait-level quote and swap-assembly entrypoints panic for
every input, even on a fully initialized mirror; only the inherent methods
are implemented. -/
theorem c10_trait_stubs_panic :
    ∀ (m : SPoolJup) (qp : QuoteParams) (sp : SwapParamsM),
      amm_quote m qp = .panicked ∧
      amm_get_swap_and_account_metas m sp = .panicked :=
  fun _ _ _ => ⟨rfl, rfl⟩

/-! ## Claim C4 — index overflow stops assembly -/

/-- Claim C4: an asset index beyond the 32-bit unsigned range makes the
assembler fail with the overflow error; no instruction is produced. -/
theorem c4_index_overflow (programId : Nat) (keys : List AccountMeta)
    (srcLstIndex dstLstIndex minAmountOut amount : Nat)
    (srcAccs dstAccs pricingAccounts : List AccountMeta)
    (pricingProgramId : Nat)
    (h : U32MAX < srcLstIndex ∨ U32MAX < dstLstIndex) :
    swap_exact_in_ix_full programId keys srcLstIndex dstLstIndex minAmountOut
      amount srcAccs dstAccs pricingAccounts pricingProgramId
      = .error .overflow := by
  rcases h with h | h
  · simp only [swap_exact_in_ix_full, index_to_u32,
      if_neg (Nat.not_le_of_lt h)]
  · by_cases h2 : srcLstIndex ≤ U32MAX
    · simp only [swap_exact_in_ix_full, index_to_u32, if_pos h2,
        if_neg (Nat.not_le_of_lt h)]
    · simp only [swap_exact_in_ix_full, index_to_u32, if_neg h2]

/-- Claim C4 witness: an index one past the 32-bit range fails with the
overflow error. -/
theorem c4_index_overflow_witness :
    swap_exact_in_ix_full 1 [] 4294967296 0 3 4 [] [] [] 40
      = .error .overflow :=
  c4_index_overflow 1 [] 4294967296 0 3 4 [] [] [] 40
    (Or.inl (by decide))

/-! ## Claim C3 — header counts, account order, two-pass rewrite -/

theorem overwriteHead_full (a b : SwapExactInIxArgs) :
    overwriteHead (serializeSwapExactInIxData a)
        (serializeSwapExactInIxData b) = serializeSwapExactInIxData a := by
  unfold overwriteHead
  rw [List.drop_eq_nil_of_le
    (by simp [serializeSwapExactInIxData, u32le, u64le]), List.append_nil]

theorem swapHeader_decode (a : SwapExactInIxArgs)
    (h1 : a.srcLstValueCalcAccs ≤ U32MAX)
    (h2 : a.dstLstValueCalcAccs ≤ U32MAX)
    (h3 : a.srcLstIndex ≤ U32MAX) (h4 : a.dstLstIndex ≤ U32MAX)
    (h5 : a.minAmountOut ≤ U64MAX) (h6 : a.amount ≤ U64MAX) :
    decodeU32le ((serializeSwapExactInIxData a).take 4)
        = a.srcLstValueCalcAccs ∧
      decodeU32le (((serializeSwapExactInIxData a).drop 4).take 4)
        = a.dstLstValueCalcAccs ∧
      decodeU32le (((serializeSwapExactInIxData a).drop 8).take 4)
        = a.srcLstIndex ∧
      decodeU32le (((serializeSwapExactInIxData a).drop 12).take 4)
        = a.dstLstIndex ∧
      decodeU64le (((serializeSwapExactInIxData a).drop 16).take 8)
        = a.minAmountOut ∧
      decodeU64le ((serializeSwapExactInIxData a).drop 24) = a.amount := by
  simp only [U32MAX] at h1 h2 h3 h4
  simp only [U64MAX] at h5 h6
  refine ⟨?_, ?_, ?_, ?_, ?_, ?_⟩
  · rw [show decodeU32le ((serializeSwapExactInIxData a).take 4) =
      a.srcLstValueCalcAccs % 256 +
        256 * (a.srcLstValueCalcAccs / 256 % 256) +
        65536 * (a.srcLstValueCalcAccs / 65536 % 256) +
        16777216 * (a.srcLstValueCalcAccs / 16777216 % 256) from rfl]
    omega
  · rw [show decodeU32le (((serializeSwapExactInIxData a).drop 4).take 4) =
      a.dstLstValueCalcAccs % 256 +
        256 * (a.dstLstValueCalcAccs / 256 % 256) +
        65536 * (a.dstLstValueCalcAccs / 65536 % 256) +
        16777216 * (a.dstLstValueCalcAccs / 16777216 % 256) from rfl]
    omega
  · rw [show decodeU32le (((serializeSwapExactInIxData a).drop 8).take 4) =
      a.srcLstIndex % 256 + 256 * (a.srcLstIndex / 256 % 256) +
        65536 * (a.srcLstIndex / 65536 % 256) +
        16777216 * (a.srcLstIndex / 16777216 % 256) from rfl]
    omega
  · rw [show decodeU32le (((serializeSwapExactInIxData a).drop 12).take 4) =
      a.dstLstIndex % 256 + 256 * (a.dstLstIndex / 256 % 256) +
        65536 * (a.dstLstIndex / 65536 % 256) +
        16777216 * (a.dstLstIndex / 16777216 % 256) from rfl]
    omega
  · rw [show decodeU64le (((serializeSwapExactInIxData a).drop 16).take 8) =
      a.minAmountOut % 256 + 256 * (a.minAmountOut / 256 % 256) +
        65536 * (a.minAmountOut / 65536 % 256) +
        16777216 * (a.minAmountOut / 16777216 % 256) +
        4294967296 * (a.minAmountOut / 4294967296 % 256) +
        1099511627776 * (a.minAmountOut / 1099511627776 % 256) +
        281474976710656 * (a.minAmountOut / 281474976710656 % 256) +
        72057594037927936 * (a.minAmountOut / 72057594037927936 % 256)
      from rfl]
    omega
  · rw [show decodeU64le ((serializeSwapExactInIxData a).drop 24) =
      a.amount % 256 + 256 * (a.amount / 256 % 256) +
        65536 * (a.amount / 65536 % 256) +
        16777216 * (a.amount / 16777216 % 256) +
        4294967296 * (a.amount / 4294967296 % 256) +
        1099511627776 * (a.amount / 1099511627776 % 256) +
        281474976710656 * (a.amount / 281474976710656 % 256) +
        72057594037927936 * (a.amount / 72057594037927936 % 256)
      from rfl]
    omega

/-- Claim C3: under in-range indices and counts the assembler succeeds; the
account list is the fixed keys, then the input-calculator accounts, then the
output-calculator accounts, then the pricing program identifier followed by
the pricing accounts; the two count header fields decode to exactly the two
appended calculator group sizes; and after the second-pass header rewrite
the remaining header fields still decode to the original indices and
amounts. -/
theorem c3_header_roundtrip (programId : Nat) (keys : List AccountMeta)
    (srcLstIndex dstLstIndex minAmountOut amount : Nat)
    (srcAccs dstAccs pricingAccounts : List AccountMeta)
    (pricingProgramId : Nat)
    (hsrc : srcLstIndex ≤ U32MAX) (hdst : dstLstIndex ≤ U32MAX)
    (hc1 : srcAccs.length ≤ U32MAX) (hc2 : dstAccs.length ≤ U32MAX)
    (hmo : minAmountOut ≤ U64MAX) (ham : amount ≤ U64MAX) :
    swap_exact_in_ix_full programId keys srcLstIndex dstLstIndex minAmountOut
        amount srcAccs dstAccs pricingAccounts pricingProgramId =
      .ok { programId := programId,
            accounts := keys ++ srcAccs ++ dstAccs ++
              (pricingProgramMeta pricingProgramId :: pricingAccounts),
            data := serializeSwapExactInIxData
              ⟨srcAccs.length, dstAccs.length, srcLstIndex, dstLstIndex,
                minAmountOut, amount⟩ } ∧
      decodeU32le ((serializeSwapExactInIxData
          ⟨srcAccs.length, dstAccs.length, srcLstIndex, dstLstIndex,
            minAmountOut, amount⟩).take 4) = srcAccs.length ∧
      decodeU32le (((serializeSwapExactInIxData
          ⟨srcAccs.length, dstAccs.length, srcLstIndex, dstLstIndex,
            minAmountOut, amount⟩).drop 4).take 4) = dstAccs.length ∧
      decodeU32le (((serializeSwapExactInIxData
          ⟨srcAccs.length, dstAccs.length, srcLstIndex, dstLstIndex,
            minAmountOut, amount⟩).drop 8).take 4) = srcLstIndex ∧
      decodeU32le (((serializeSwapExactInIxData
          ⟨srcAccs.length, dstAccs.length, srcLstIndex, dstLstIndex,
            minAmountOut, amount⟩).drop 12).take 4) = dstLstIndex ∧
      decodeU64le (((serializeSwapExactInIxData
          ⟨srcAccs.length, dstAccs.length, srcLstIndex, dstLstIndex,
            minAmountOut, amount⟩).drop 16).take 8) = minAmountOut ∧
      decodeU64le ((serializeSwapExactInIxData
          ⟨srcAccs.length, dstAccs.length, srcLstIndex, dstLstIndex,
            minAmountOut, amount⟩).drop 24) = amount := by
  refine ⟨?_, swapHeader_decode _ hc1 hc2 hsrc hdst hmo ham⟩
  simp only [swap_exact_in_ix_full, index_to_u32, if_pos hsrc, if_pos hdst,
    ix_extend_with_src_dst_sol_value_calculator_accounts,
    if_pos (And.intro hc1 hc2),
    ix_extend_with_pricing_program_price_swap_accounts, swap_exact_in_ix,
    overwriteHead_full]

/-- Claim C3 witness: a concrete assembly with one input-calculator account,
no output-calculator accounts and one pricing account. -/
theorem c3_header_roundtrip_witness :
    swap_exact_in_ix_full 1 [(⟨10, true, true⟩ : AccountMeta)] 0 1 3 4
        [(⟨20, false, false⟩ : AccountMeta)] []
        [(⟨30, false, true⟩ : AccountMeta)] 40 =
      .ok { programId := 1,
            accounts := [(⟨10, true, true⟩ : AccountMeta)] ++
              [(⟨20, false, false⟩ : AccountMeta)] ++ [] ++
              (pricingProgramMeta 40 ::
                [(⟨30, false, true⟩ : AccountMeta)]),
            data := serializeSwapExactInIxData ⟨1, 0, 0, 1, 3, 4⟩ } ∧
      decodeU32le ((serializeSwapExactInIxData
        ⟨1, 0, 0, 1, 3, 4⟩).take 4) = 1 ∧
      decodeU32le (((serializeSwapExactInIxData
        ⟨1, 0, 0, 1, 3, 4⟩).drop 4).take 4) = 0 ∧
      decodeU32le (((serializeSwapExactInIxData
        ⟨1, 0, 0, 1, 3, 4⟩).drop 8).take 4) = 0 ∧
      decodeU32le (((serializeSwapExactInIxData
        ⟨1, 0, 0, 1, 3, 4⟩).drop 12).take 4) = 1 ∧
      decodeU64le (((serializeSwapExactInIxData
        ⟨1, 0, 0, 1, 3, 4⟩).drop 16).take 8) = 3 ∧
      decodeU64le ((serializeSwapExactInIxData
        ⟨1, 0, 0, 1, 3, 4⟩).drop 24) = 4 :=
  c3_header_roundtrip 1 [⟨10, true, true⟩] 0 1 3 4 [⟨20, false, false⟩] []
    [⟨30, false, true⟩] 40 (by decide) (by decide) (by decide) (by decide)
    (by decide) (by decide)
